import Mathlib

/-!
Verification development for the Studio-Moallem exam-sheet generator.

The TypeScript sources are shallowly embedded: the data model of
`src/types.ts` becomes Lean structures, the pure parts of the event
handlers in `src/App.tsx`, the grouping/pagination logic of
`src/components/ExamRenderer.tsx` and the response parsing of
`src/services/geminiService.ts` become executable Lean functions, and
the stateful flows (optimistic update then revert / replace) become
explicit state-passing functions on `ExamPaper`.

External platform functions (`JSON.parse`, `FileReader`, base64) are
modelled: `JSON.parse` is a parameter `jp` of `parseJSONSafe` so the
structural theorems hold for any parser, and `jsonParse` below is an
executable model of `JSON.parse` (restricted to integer numerals and
the simple string escapes) used for concrete witnesses.
-/

namespace StudioMoallem

/-- The six question kinds of `QuestionType` in `src/types.ts`. -/
inductive QuestionType where
  | multipleChoice
  | trueFalse
  | shortAnswer
  | longAnswer
  | fillInTheBlank
  | matching
deriving DecidableEq, Repr

/-- `Difficulty` in `src/types.ts`. -/
inductive Difficulty where
  | easy
  | medium
  | hard
deriving DecidableEq, Repr

/-- `Question` in `src/types.ts`; optional TypeScript fields become `Option`.
Matching pairs are `left × right` string pairs. -/
structure Question where
  id : Nat
  type : QuestionType
  text : String
  options : Option (List String) := none
  pairs : Option (List (String × String)) := none
  correctAnswer : Option String := none
  learningObjective : String := ""
  difficulty : Option Difficulty := none
  page : Option Nat := none
deriving DecidableEq, Repr

/-- `ExamHeader` in `src/types.ts`. -/
structure ExamHeader where
  title : String
  schoolName : String
  grade : String
  durationMinutes : Nat
deriving DecidableEq, Repr

/-- `ExamLabels` in `src/types.ts`. -/
structure ExamLabels where
  school : String
  course : String
  grade : String
  name : String
  date : String
  time : String
  page : String
  teacherFeedback : String
  parentFeedback : String
  signature : String
deriving DecidableEq, Repr

/-- `ExamStyle` in `src/types.ts`; the three enumerated fields are kept
as strings exactly as they travel through the component props. -/
structure ExamStyle where
  fontFamily : String
  fontSize : String
  textAlign : String
deriving DecidableEq, Repr

/-- `ExamPaper` in `src/types.ts`; `evaluationTable` rows carry just the
`objective` string. -/
structure ExamPaper where
  header : ExamHeader
  questions : List Question
  evaluationTable : List String
  pageCount : Nat
  labels : Option ExamLabels := none
  style : Option ExamStyle := none
deriving DecidableEq, Repr

/-- `GenerationConfig.sourceType` in `src/types.ts`. -/
inductive SourceType where
  | text
  | url
  | file
deriving DecidableEq, Repr

/-- The `fileData` payload of `GenerationConfig`. -/
structure FileData where
  mimeType : String
  data : String
deriving DecidableEq, Repr

/-- `Record<QuestionType, number>` of per-type question counts. -/
structure QuestionCounts where
  multipleChoice : Nat
  trueFalse : Nat
  fillInTheBlank : Nat
  matching : Nat
  shortAnswer : Nat
  longAnswer : Nat
deriving DecidableEq, Repr

/-- `GenerationConfig` in `src/types.ts`. -/
structure GenerationConfig where
  sourceType : SourceType
  content : String
  fileData : Option FileData := none
  difficulty : Difficulty
  questionCounts : QuestionCounts
  pageCount : Option Nat := none
deriving DecidableEq, Repr

/-- JSON documents, the values produced by `JSON.parse`. -/
inductive Json where
  | null
  | bool (b : Bool)
  | num (n : Int)
  | str (s : String)
  | arr (elems : List Json)
  | obj (members : List (String × Json))
deriving Repr

/-- JSON whitespace (space, tab, line feed, carriage return). -/
def jsonWs (c : Char) : Bool :=
  c == ' ' || c == '\t' || c == '\n' || c == '\r'

/-- Drop leading JSON whitespace. -/
def skipWs (cs : List Char) : List Char :=
  cs.dropWhile jsonWs

/-- Decode one character following a backslash in a JSON string literal. -/
def escChar (c : Char) : Option Char :=
  if c = '"' then some '"'
  else if c = '\\' then some '\\'
  else if c = '/' then some '/'
  else if c = 'n' then some '\n'
  else if c = 't' then some '\t'
  else if c = 'r' then some '\r'
  else if c = 'b' then some '\x08'
  else if c = 'f' then some '\x0c'
  else none

/-- Parse the body of a JSON string literal (the opening quote already
consumed) up to and including the closing quote; returns the decoded
characters and the remaining input. -/
def parseStringBody : List Char → Option (List Char × List Char)
  | [] => none
  | c :: rest =>
    if c = '"' then some ([], rest)
    else if c = '\\' then
      match rest with
      | [] => none
      | e :: rest2 =>
        match escChar e with
        | none => none
        | some ec => (parseStringBody rest2).map (fun pr => (ec :: pr.1, pr.2))
    else (parseStringBody rest).map (fun pr => (c :: pr.1, pr.2))

/-- Numeric value of a decimal digit list. -/
def digitsVal (ds : List Char) : Nat :=
  ds.foldl (fun a c => a * 10 + (c.toNat - 48)) 0

/-- Parse a JSON integer numeral (model restriction: no fraction or
exponent part). -/
def parseNumber (cs : List Char) : Option (Int × List Char) :=
  match cs with
  | '-' :: rest =>
    let pr := rest.span Char.isDigit
    if pr.1.isEmpty then none else some (-(digitsVal pr.1 : Int), pr.2)
  | _ =>
    let pr := cs.span Char.isDigit
    if pr.1.isEmpty then none else some ((digitsVal pr.1 : Int), pr.2)

/-- The keyword `null` as characters. -/
def kwNull : List Char := ['n', 'u', 'l', 'l']

/-- The keyword `true` as characters. -/
def kwTrue : List Char := ['t', 'r', 'u', 'e']

/-- The keyword `false` as characters. -/
def kwFalse : List Char := ['f', 'a', 'l', 's', 'e']

/-- Consume a literal keyword prefix, if present. -/
def dropKeyword (kw : List Char) (s : List Char) : Option (List Char) :=
  if kw.isPrefixOf s then some (s.drop kw.length) else none

mutual

/-- Fuel-indexed recursive-descent JSON value parser. -/
def parseValue : Nat → List Char → Option (Json × List Char)
  | 0, _ => none
  | Nat.succ fuel, cs =>
    let s := skipWs cs
    match dropKeyword kwNull s with
    | some r => some (Json.null, r)
    | none =>
      match dropKeyword kwTrue s with
      | some r => some (Json.bool true, r)
      | none =>
        match dropKeyword kwFalse s with
        | some r => some (Json.bool false, r)
        | none =>
          match s with
          | '"' :: rest =>
            (parseStringBody rest).map (fun pr => (Json.str (String.mk pr.1), pr.2))
          | '[' :: rest =>
            match skipWs rest with
            | ']' :: r3 => some (Json.arr [], r3)
            | r2 => (parseElems fuel r2).map (fun pr => (Json.arr pr.1, pr.2))
          | '\x7b' :: rest =>
            match skipWs rest with
            | '\x7d' :: r3 => some (Json.obj [], r3)
            | r2 => (parseMembers fuel r2).map (fun pr => (Json.obj pr.1, pr.2))
          | s2 => (parseNumber s2).map (fun pr => (Json.num pr.1, pr.2))

/-- Parse the elements of a nonempty JSON array up to the closing bracket. -/
def parseElems : Nat → List Char → Option (List Json × List Char)
  | 0, _ => none
  | Nat.succ fuel, cs =>
    match parseValue fuel cs with
    | none => none
    | some (v, rest) =>
      match skipWs rest with
      | ',' :: r2 => (parseElems fuel r2).map (fun pr => (v :: pr.1, pr.2))
      | ']' :: r2 => some ([v], r2)
      | _ => none

/-- Parse the members of a nonempty JSON object up to the closing brace. -/
def parseMembers : Nat → List Char → Option (List (String × Json) × List Char)
  | 0, _ => none
  | Nat.succ fuel, cs =>
    match skipWs cs with
    | '"' :: rest =>
      match parseStringBody rest with
      | none => none
      | some (key, r2) =>
        match skipWs r2 with
        | ':' :: r3 =>
          match parseValue fuel r3 with
          | none => none
          | some (v, r4) =>
            match skipWs r4 with
            | ',' :: r5 =>
              (parseMembers fuel r5).map (fun pr => ((String.mk key, v) :: pr.1, pr.2))
            | '\x7d' :: r5 => some ([(String.mk key, v)], r5)
            | _ => none
        | _ => none
    | _ => none

end

/-- Executable model of JavaScript `JSON.parse` (restricted to integer
numerals and the simple escape sequences): parse one value and require
only whitespace to remain. -/
def jsonParse (s : String) : Option Json :=
  let cs := s.toList
  match parseValue (2 * cs.length + 2) cs with
  | some (v, rest) => if (skipWs rest).isEmpty then some v else none
  | none => none

/-- JavaScript regex whitespace for the source pattern; model restricted
to the ASCII whitespace characters. -/
def jsWsChar (c : Char) : Bool :=
  c == ' ' || c == '\t' || c == '\n' || c == '\r' || c == '\x0b' || c == '\x0c'

/-- Suffix following the first occurrence of `pat`, if any. -/
def dropAfterFirst (pat : List Char) : List Char → Option (List Char)
  | [] => if pat.isEmpty then some [] else none
  | s@(_ :: rest) =>
    if pat.isPrefixOf s then some (s.drop pat.length) else dropAfterFirst pat rest

/-- Prefix preceding the first occurrence of `pat`, if any. -/
def takeBeforeFirst (pat : List Char) : List Char → Option (List Char)
  | [] => if pat.isEmpty then some [] else none
  | s@(c :: rest) =>
    if pat.isPrefixOf s then some []
    else (takeBeforeFirst pat rest).map (fun l => c :: l)

/-- Remove the trailing run of characters satisfying `p`. -/
def trimTrailing (p : Char → Bool) (l : List Char) : List Char :=
  (l.reverse.dropWhile p).reverse

/-- The opening fence of the source regex. -/
def fenceOpenStr : String := "```json"

/-- The closing fence of the source regex. -/
def fenceCloseStr : String := "```"

/-- The capture group of the first match of the JavaScript regex
matching a json fenced code block in `src/services/geminiService.ts`
(line 8): the text after the first occurrence of the opening fence and
before the next closing fence, with surrounding whitespace trimmed
exactly as the greedy-lazy-greedy pattern does. -/
def fencedJsonCapture (text : String) : Option String :=
  match dropAfterFirst fenceOpenStr.toList text.toList with
  | none => none
  | some rest =>
    let body := rest.dropWhile jsWsChar
    match takeBeforeFirst fenceCloseStr.toList body with
    | none => none
    | some content => some (String.mk (trimTrailing jsWsChar content))

/-- JavaScript `String.prototype.indexOf` for a single character,
returning `none` for `-1`. -/
def firstIndexOf (c : Char) (s : String) : Option Nat :=
  s.toList.findIdx? (fun x => x == c)

/-- JavaScript `String.prototype.lastIndexOf` for a single character,
returning `none` for `-1`. -/
def lastIndexOf (c : Char) (s : String) : Option Nat :=
  match s.toList.reverse.findIdx? (fun x => x == c) with
  | none => none
  | some i => some (s.toList.length - 1 - i)

/-- JavaScript `String.prototype.substring`: indices are clamped to the
string length and swapped when given in decreasing order. -/
def jsSubstring (s : String) (a b : Nat) : String :=
  let cs := s.toList
  let a2 := min a cs.length
  let b2 := min b cs.length
  let lo := min a2 b2
  let hi := max a2 b2
  String.mk ((cs.drop lo).take (hi - lo))

/-- The brace-substring fallback of `parseJSONSafe`
(`src/services/geminiService.ts` lines 12-16): when both an opening and
a closing brace occur, parse the substring from the first opening brace
through the last closing brace; otherwise fail. -/
def braceParse (jp : String → Option Json) (text : String) : Option Json :=
  match firstIndexOf '\x7b' text, lastIndexOf '\x7d' text with
  | some s, some e => jp (jsSubstring text s (e + 1))
  | _, _ => none

/-- `parseJSONSafe` of `src/services/geminiService.ts` lines 4-19,
parameterised by the platform parser `jp` standing for `JSON.parse`
(failure = `none` models a thrown exception).  The guard
`if (match && match[1])` makes an empty capture fall through to the
brace fallback, because the empty string is falsy in JavaScript. -/
def parseJSONSafe (jp : String → Option Json) (text : String) : Option Json :=
  match jp text with
  | some v => some v
  | none =>
    match fencedJsonCapture text with
    | some g => if g = "" then braceParse jp text else jp g
    | none => braceParse jp text

/-! ## Pagination and rendering (`src/components/ExamRenderer.tsx`) -/

/-- `q.page || 1`: the page a question renders on; `undefined` and `0`
are falsy in JavaScript, so both default to `1`. -/
def pageOf (q : Question) : Nat :=
  match q.page with
  | none => 1
  | some p => if p = 0 then 1 else p

/-- JavaScript `n || 1` on a number: `0` is falsy. -/
def jsOr1 (n : Nat) : Nat := if n = 0 then 1 else n

/-- `Math.max(0, ...Object.keys(pages).map(Number))` (line 220): the
record keys are the distinct `pageOf` values, and the maximum over the
distinct values equals the maximum over all of them. -/
def maxPageWithQuestions (qs : List Question) : Nat :=
  (qs.map pageOf).foldr max 0

/-- `totalRenderPages` (line 221). -/
def totalRenderPages (e : ExamPaper) : Nat :=
  max (jsOr1 e.pageCount) (maxPageWithQuestions e.questions)

/-- `pageNumbers` (line 222): `[1, ..., totalRenderPages]`. -/
def pageNumbers (e : ExamPaper) : List Nat :=
  (List.range (totalRenderPages e)).map (fun i => i + 1)

/-- `TYPE_ORDER` (lines 14-21): the fixed display order of sections. -/
def TYPE_ORDER : List QuestionType :=
  [QuestionType.trueFalse, QuestionType.matching, QuestionType.multipleChoice,
   QuestionType.fillInTheBlank, QuestionType.shortAnswer, QuestionType.longAnswer]

/-- `pages[p]` (lines 210-218): the bucket of questions whose `pageOf`
is `p`, in input order (each question is pushed as it is traversed). -/
def pageBucket (qs : List Question) (p : Nat) : List Question :=
  qs.filter (fun q => decide (pageOf q = p))

/-- `groupedQuestions[t]` (lines 315-320): the bucket of questions of
type `t`, in input order. -/
def typeBucket (qs : List Question) (t : QuestionType) : List Question :=
  qs.filter (fun q => decide (q.type = t))

/-- The rendered sections of one page (lines 419-421): `TYPE_ORDER` is
traversed in order and empty groups are skipped (`return null`). -/
def renderGroups (qs : List Question) (p : Nat) : List (QuestionType × List Question) :=
  TYPE_ORDER.filterMap (fun t =>
    let g := typeBucket (pageBucket qs p) t
    if g.isEmpty then none else some (t, g))

/-! ## Generation gating (`src/App.tsx`, `handleGenerate`) -/

/-- JavaScript `String.prototype.trim` (ASCII-whitespace model). -/
def jsTrim (s : String) : String :=
  String.mk (trimTrailing jsWsChar (s.toList.dropWhile jsWsChar))

/-- Outcome of `handleGenerate`: one of the four rejection branches
(each sets an error message and returns) or the generation call. -/
inductive GenOutcome where
  | errMissingContent
  | errMissingFile
  | errZeroQuestions
  | errTooManyQuestions
  | generate (config : GenerationConfig)
deriving DecidableEq, Repr

/-- The total requested question count, summed over the six types
(`Object.values(config.questionCounts).reduce((a, b) => a + b, 0)`). -/
def totalQuestions (qc : QuestionCounts) : Nat :=
  qc.multipleChoice + qc.trueFalse + qc.fillInTheBlank + qc.matching +
    qc.shortAnswer + qc.longAnswer

/-- `handleGenerate` guards (`src/App.tsx` lines 47-73): missing
content, missing file, zero total, total above 40, else generate. -/
def handleGenerate (c : GenerationConfig) : GenOutcome :=
  if c.sourceType ≠ SourceType.file ∧ jsTrim c.content = "" then
    GenOutcome.errMissingContent
  else if c.sourceType = SourceType.file ∧ c.fileData = none then
    GenOutcome.errMissingFile
  else if totalQuestions c.questionCounts = 0 then
    GenOutcome.errZeroQuestions
  else if totalQuestions c.questionCounts > 40 then
    GenOutcome.errTooManyQuestions
  else GenOutcome.generate c

/-! ## Generation post-processing (`src/services/geminiService.ts` 176-177) -/

/-- `result.questions = result.questions.map(q => (\x7b ...q, page: 1 \x7d));
result.pageCount = config.pageCount || 1;` applied to the parsed AI
response. -/
def genPostProcess (raw : ExamPaper) (cfgPageCount : Option Nat) : ExamPaper :=
  { raw with
    questions := raw.questions.map (fun q => { q with page := some 1 }),
    pageCount := jsOr1 (cfgPageCount.getD 0) }

/-! ## Editing operations (`src/App.tsx`, `src/components/ExamRenderer.tsx`) -/

/-- Default text of a manually added question. -/
def newQuestionText : String := "سوال جدید..."

/-- Default learning objective of a manually added question. -/
def newObjectiveText : String := "هدف آموزشی جدید"

/-- Default text of an added matching question. -/
def matchingDefaultText : String := "موارد مربوطه را به هم وصل کنید."

/-- Default text of an added true/false question. -/
def trueFalseDefaultText : String := "این گزاره صحیح است."

/-- Default text of an added fill-in-the-blank question. -/
def fibDefaultText : String := "........ پایتخت ایران است."

/-- Default multiple-choice option labels. -/
def optionLabel1 : String := "گزینه ۱"

/-- Default multiple-choice option labels. -/
def optionLabel2 : String := "گزینه ۲"

/-- Default multiple-choice option labels. -/
def optionLabel3 : String := "گزینه ۳"

/-- Default multiple-choice option labels. -/
def optionLabel4 : String := "گزینه ۴"

/-- Default matching pair labels. -/
def pairLeftA : String := "مورد الف"

/-- Default matching pair labels. -/
def pairLeftB : String := "مورد ب"

/-- Label of an option appended by `addOption`. -/
def newOptionLabel : String := "گزینه جدید"

/-- Optimistic placeholder text shown while a question regenerates. -/
def placeholderText : String := "در حال بازنویسی..."

/-- The question built by `handleAddQuestion` (`src/App.tsx` 170-196):
a base question then the per-type `switch`. -/
def addQuestionNew (t : QuestionType) (newId lastPage : Nat) : Question :=
  let base : Question :=
    { id := newId, type := t, text := newQuestionText,
      learningObjective := newObjectiveText,
      difficulty := some Difficulty.medium, page := some lastPage }
  match t with
  | QuestionType.multipleChoice =>
    { base with options := some [optionLabel1, optionLabel2, optionLabel3, optionLabel4] }
  | QuestionType.matching =>
    { base with
      pairs := some [(pairLeftA, optionLabel1), (pairLeftB, optionLabel2)],
      text := matchingDefaultText }
  | QuestionType.trueFalse => { base with text := trueFalseDefaultText }
  | QuestionType.fillInTheBlank => { base with text := fibDefaultText }
  | _ => base

/-- `handleAddQuestion` (`src/App.tsx` 165-202): the new id is
`Math.max(...ids, 0) + 1`, the page is the highest used page (the
`pageOf` values are all at least 1, so the fold's floor 0 is inert),
and the new question is appended. -/
def handleAddQuestion (e : ExamPaper) (t : QuestionType) : ExamPaper :=
  let newId := (e.questions.map Question.id).foldr max 0 + 1
  let lastPage := if e.questions.isEmpty then 1 else maxPageWithQuestions e.questions
  { e with questions := e.questions ++ [addQuestionNew t newId lastPage] }

/-- `updateQuestion(id, field, value)` (`ExamRenderer.tsx` 158-163)
specialised to one field update `f`. -/
def updateQuestionBy (e : ExamPaper) (qId : Nat) (f : Question → Question) : ExamPaper :=
  { e with questions := e.questions.map (fun q => if q.id = qId then f q else q) }

/-- `updateQuestion(id, 'text', v)`. -/
def updateQuestionText (e : ExamPaper) (qId : Nat) (v : String) : ExamPaper :=
  updateQuestionBy e qId (fun q => { q with text := v })

/-- `updateQuestion(id, 'options', v)`. -/
def updateQuestionOptions (e : ExamPaper) (qId : Nat) (v : List String) : ExamPaper :=
  updateQuestionBy e qId (fun q => { q with options := some v })

/-- `addOption` (`ExamRenderer.tsx` 193-198): only acts when the found
question already has an options array. -/
def addOption (e : ExamPaper) (qId : Nat) : ExamPaper :=
  match e.questions.find? (fun q => decide (q.id = qId)) with
  | some q =>
    match q.options with
    | some opts => updateQuestionOptions e qId (opts ++ [newOptionLabel])
    | none => e
  | none => e

/-- `updateOption` (`ExamRenderer.tsx` 200-207); `List.set` models the
in-range index assignment performed by the UI. -/
def updateOption (e : ExamPaper) (qId : Nat) (idx : Nat) (v : String) : ExamPaper :=
  match e.questions.find? (fun q => decide (q.id = qId)) with
  | some q =>
    match q.options with
    | some opts => updateQuestionOptions e qId (opts.set idx v)
    | none => e
  | none => e

/-- `deleteQuestion` (`ExamRenderer.tsx` 188-191): filter by id. -/
def deleteQuestion (e : ExamPaper) (qId : Nat) : ExamPaper :=
  { e with questions := e.questions.filter (fun q => decide (q.id ≠ qId)) }

/-- The new page of a moved question (`ExamRenderer.tsx` 168-170). -/
def movedPage (next : Bool) (q : Question) : Nat :=
  if next then pageOf q + 1 else max 1 (pageOf q - 1)

/-- `moveQuestionPage` (`ExamRenderer.tsx` 165-186): the moved question
gets its new page, and `pageCount` becomes the running maximum of
`exam.pageCount || 1` and every moved question's new page. -/
def moveQuestionPage (e : ExamPaper) (qId : Nat) (next : Bool) : ExamPaper :=
  let newQuestions :=
    e.questions.map (fun q => if q.id = qId then { q with page := some (movedPage next q) } else q)
  let movedPages :=
    e.questions.filterMap (fun q => if q.id = qId then some (movedPage next q) else none)
  { e with
    questions := newQuestions,
    pageCount := max (jsOr1 e.pageCount) (movedPages.foldr max 0) }

/-! ## Regeneration (`src/App.tsx` 210-234, `geminiService.ts` 187-219) -/

/-- The JSON object returned by the AI for one regenerated question:
each field is `some` exactly when the key is present in the response. -/
structure RegenData where
  id : Option Nat := none
  type : Option QuestionType := none
  text : Option String := none
  options : Option (List String) := none
  pairs : Option (List (String × String)) := none
  correctAnswer : Option String := none
  learningObjective : Option String := none
  difficulty : Option Difficulty := none
  page : Option Nat := none
deriving DecidableEq, Repr

/-- `\x7b ...currentQuestion, ...data, difficulty: newDifficulty \x7d`
(`geminiService.ts` 214-218): keys present in `data` override the
current question, and the explicit difficulty overrides both. -/
def mergeRegen (cur : Question) (d : RegenData) (nd : Difficulty) : Question :=
  { id := d.id.getD cur.id,
    type := d.type.getD cur.type,
    text := d.text.getD cur.text,
    options := match d.options with | some o => some o | none => cur.options,
    pairs := match d.pairs with | some p => some p | none => cur.pairs,
    correctAnswer := match d.correctAnswer with | some s => some s | none => cur.correctAnswer,
    learningObjective := d.learningObjective.getD cur.learningObjective,
    difficulty := some nd,
    page := match d.page with | some p => some p | none => cur.page }

/-- Set the text of every question with the given id. -/
def setQuestionText (qId : Nat) (v : String) (qs : List Question) : List Question :=
  qs.map (fun q => if q.id = qId then { q with text := v } else q)

/-- The optimistic update of `handleRegenerateQuestion` (line 216):
the matched question's text becomes the placeholder. -/
def optimisticRegen (e : ExamPaper) (qId : Nat) : ExamPaper :=
  { e with questions := setQuestionText qId placeholderText e.questions }

/-- `handleRegenerateQuestion` when the service call fails
(`src/App.tsx` 210-233): the original text is captured, the optimistic
placeholder is applied, and the catch handler writes the original text
back into the question. -/
def regenerateFailureFlow (e : ExamPaper) (qId : Nat) : ExamPaper :=
  match e.questions.find? (fun q => decide (q.id = qId)) with
  | none => e
  | some q0 =>
    let e1 := optimisticRegen e qId
    { e1 with questions := setQuestionText qId q0.text e1.questions }

/-- `handleRegenerateQuestion` when the service call succeeds
(`src/App.tsx` 219-226): the merged question replaces the matched one
with `id: qId, page: q.page` forced. -/
def regenerateSuccessFlow (e : ExamPaper) (qId : Nat) (d : RegenData) (nd : Difficulty) : ExamPaper :=
  match e.questions.find? (fun q => decide (q.id = qId)) with
  | none => e
  | some q0 =>
    let newQ := mergeRegen q0 d nd
    let e1 := optimisticRegen e qId
    { e1 with
      questions := e1.questions.map
        (fun q => if q.id = qId then { newQ with id := qId, page := q.page } else q) }

/-! ## File upload (`src/App.tsx` 236-261) -/

/-- An uploaded file: name, MIME type (`file.type`), raw bytes. -/
structure UploadedFile where
  name : String
  mime : String
  bytes : List Nat
deriving DecidableEq, Repr

/-- The base64 alphabet. -/
def b64Alphabet : List Char :=
  "ABCDEFGHIJKLMNOPQRSTUVWXYZabcdefghijklmnopqrstuvwxyz0123456789+/".toList

/-- The base64 digit for a 6-bit value. -/
def b64Char (n : Nat) : Char := b64Alphabet.getD n 'A'

/-- Standard base64 encoding over 3-byte chunks with padding. -/
def b64Encode : List Nat → List Char
  | [] => []
  | b0 :: [] =>
    let n0 := b0 % 256
    [b64Char (n0 / 4), b64Char (n0 % 4 * 16), '=', '=']
  | b0 :: b1 :: [] =>
    let n0 := b0 % 256
    let n1 := b1 % 256
    [b64Char (n0 / 4), b64Char (n0 % 4 * 16 + n1 / 16), b64Char (n1 % 16 * 4), '=']
  | b0 :: b1 :: b2 :: rest =>
    let n0 := b0 % 256
    let n1 := b1 % 256
    let n2 := b2 % 256
    b64Char (n0 / 4) :: b64Char (n0 % 4 * 16 + n1 / 16) ::
      b64Char (n1 % 16 * 4 + n2 / 64) :: b64Char (n2 % 64) :: b64Encode rest

/-- JavaScript `s.split(',')`. -/
def splitComma : List Char → List (List Char)
  | [] => [[]]
  | c :: rest =>
    if c = ',' then [] :: splitComma rest
    else
      match splitComma rest with
      | [] => [[c]]
      | h :: t => (c :: h) :: t

/-- The scheme prefix of a `FileReader.readAsDataURL` result. -/
def dataUrlPrefix : String := "data:"

/-- The base64 marker of a `FileReader.readAsDataURL` result. -/
def base64Marker : String := ";base64,"

/-- Model of `FileReader.readAsDataURL`: a data URL whose payload is
the standard base64 encoding of the file bytes. -/
def readAsDataURL (f : UploadedFile) : String :=
  dataUrlPrefix ++ f.mime ++ base64Marker ++ String.mk (b64Encode f.bytes)

/-- `base64String.split(',')[1]` (line 248). -/
def splitCommaAt1 (s : String) : String :=
  String.mk ((splitComma s.toList).getD 1 [])

/-- The 10MB size limit (`10 * 1024 * 1024`). -/
def fileSizeLimit : Nat := 10 * 1024 * 1024

/-- The oversized-file error message. -/
def fileErrMsg : String := "حجم فایل نباید بیشتر از ۱۰ مگابایت باشد."

/-- The content label prefix written on upload. -/
def filePrefixLabel : String := "File: "

/-- `handleFileUpload` (`src/App.tsx` 236-261) as a function from the
file and the current `(config, error)` state to the next state. -/
def handleFileUpload (f : UploadedFile) (cfg : GenerationConfig) (_err : Option String) :
    GenerationConfig × Option String :=
  if f.bytes.length > fileSizeLimit then (cfg, some fileErrMsg)
  else
    ({ cfg with
        fileData := some { mimeType := f.mime, data := splitCommaAt1 (readAsDataURL f) },
        content := filePrefixLabel ++ f.name },
     none)

/-! ## Configuration save/load (`src/App.tsx` 273-297)

`JSON.stringify`/`JSON.parse` are modelled at the level of the JSON
document they exchange: saving stores the JSON encoding of the config
(`JSON.stringify` drops fields holding `undefined`), loading decodes it
with the `\x7b ...INITIAL_CONFIG, ...parsed \x7d` merge supplying the
initial value for every absent key. -/

/-- Key of the serialized `sourceType` field. -/
def keySourceType : String := "sourceType"

/-- Key of the serialized `content` field. -/
def keyContent : String := "content"

/-- Key of the serialized `fileData` field. -/
def keyFileData : String := "fileData"

/-- Key of the serialized `difficulty` field. -/
def keyDifficulty : String := "difficulty"

/-- Key of the serialized `questionCounts` field. -/
def keyQuestionCounts : String := "questionCounts"

/-- Key of the serialized `pageCount` field. -/
def keyPageCount : String := "pageCount"

/-- Key of the serialized `fileData.mimeType` field. -/
def keyMimeType : String := "mimeType"

/-- Key of the serialized `fileData.data` field. -/
def keyData : String := "data"

/-- Serialized `QuestionType` enum value. -/
def qtKeyMC : String := "MULTIPLE_CHOICE"

/-- Serialized `QuestionType` enum value. -/
def qtKeyTF : String := "TRUE_FALSE"

/-- Serialized `QuestionType` enum value. -/
def qtKeyFIB : String := "FILL_IN_THE_BLANK"

/-- Serialized `QuestionType` enum value. -/
def qtKeyMatching : String := "MATCHING"

/-- Serialized `QuestionType` enum value. -/
def qtKeySA : String := "SHORT_ANSWER"

/-- Serialized `QuestionType` enum value. -/
def qtKeyLA : String := "LONG_ANSWER"

/-- Serialized `sourceType` values. -/
def srcKeyText : String := "TEXT"

/-- Serialized `sourceType` values. -/
def srcKeyUrl : String := "URL"

/-- Serialized `sourceType` values. -/
def srcKeyFile : String := "FILE"

/-- Serialized `difficulty` values. -/
def diffKeyEasy : String := "Easy"

/-- Serialized `difficulty` values. -/
def diffKeyMedium : String := "Medium"

/-- Serialized `difficulty` values. -/
def diffKeyHard : String := "Hard"

/-- Field lookup in a JSON object. -/
def jsonLookup (j : Json) (key : String) : Option Json :=
  match j with
  | Json.obj ms => (ms.find? (fun kv => decide (kv.1 = key))).map Prod.snd
  | _ => none

/-- Serialize a `sourceType`. -/
def encodeSourceType : SourceType → String
  | SourceType.text => srcKeyText
  | SourceType.url => srcKeyUrl
  | SourceType.file => srcKeyFile

/-- Deserialize a `sourceType`. -/
def decodeSourceType (j : Json) : Option SourceType :=
  match j with
  | Json.str s =>
    if s = srcKeyText then some SourceType.text
    else if s = srcKeyUrl then some SourceType.url
    else if s = srcKeyFile then some SourceType.file
    else none
  | _ => none

/-- Serialize a `difficulty`. -/
def encodeDifficulty : Difficulty → String
  | Difficulty.easy => diffKeyEasy
  | Difficulty.medium => diffKeyMedium
  | Difficulty.hard => diffKeyHard

/-- Deserialize a `difficulty`. -/
def decodeDifficulty (j : Json) : Option Difficulty :=
  match j with
  | Json.str s =>
    if s = diffKeyEasy then some Difficulty.easy
    else if s = diffKeyMedium then some Difficulty.medium
    else if s = diffKeyHard then some Difficulty.hard
    else none
  | _ => none

/-- A JSON string field. -/
def asStr (j : Json) : Option String :=
  match j with
  | Json.str s => some s
  | _ => none

/-- A JSON non-negative number field (`Int.ofNat` is the constructor
of non-negative integers, so this rejects exactly the negatives). -/
def asNat (j : Json) : Option Nat :=
  match j with
  | Json.num (Int.ofNat n) => some n
  | _ => none

/-- Serialize `fileData`. -/
def encodeFileData (fd : FileData) : Json :=
  Json.obj [(keyMimeType, Json.str fd.mimeType), (keyData, Json.str fd.data)]

/-- Deserialize `fileData`. -/
def decodeFileData (j : Json) : Option FileData :=
  match jsonLookup j keyMimeType, jsonLookup j keyData with
  | some jm, some jd =>
    match asStr jm, asStr jd with
    | some m, some d => some { mimeType := m, data := d }
    | _, _ => none
  | _, _ => none

/-- Serialize the per-type question counts, keys in the enum order of
`INITIAL_COUNTS`. -/
def encodeCounts (qc : QuestionCounts) : Json :=
  Json.obj
    [(qtKeyMC, Json.num qc.multipleChoice), (qtKeyTF, Json.num qc.trueFalse),
     (qtKeyFIB, Json.num qc.fillInTheBlank), (qtKeyMatching, Json.num qc.matching),
     (qtKeySA, Json.num qc.shortAnswer), (qtKeyLA, Json.num qc.longAnswer)]

/-- Deserialize the per-type question counts. -/
def decodeCounts (j : Json) : Option QuestionCounts := do
  let mc ← jsonLookup j qtKeyMC >>= asNat
  let tf ← jsonLookup j qtKeyTF >>= asNat
  let fib ← jsonLookup j qtKeyFIB >>= asNat
  let mat ← jsonLookup j qtKeyMatching >>= asNat
  let sa ← jsonLookup j qtKeySA >>= asNat
  let la ← jsonLookup j qtKeyLA >>= asNat
  pure { multipleChoice := mc, trueFalse := tf, fillInTheBlank := fib,
         matching := mat, shortAnswer := sa, longAnswer := la }

/-- `INITIAL_COUNTS` (`src/App.tsx` 7-14). -/
def INITIAL_COUNTS : QuestionCounts :=
  { multipleChoice := 4, trueFalse := 3, fillInTheBlank := 3,
    matching := 1, shortAnswer := 3, longAnswer := 1 }

/-- `INITIAL_CONFIG` (`src/App.tsx` 16-22). -/
def INITIAL_CONFIG : GenerationConfig :=
  { sourceType := SourceType.text, content := "", fileData := none,
    difficulty := Difficulty.medium, questionCounts := INITIAL_COUNTS,
    pageCount := some 1 }

/-- `JSON.stringify(config)` as a JSON document: optional fields that
are absent (`undefined`) are dropped. -/
def encodeConfig (c : GenerationConfig) : Json :=
  Json.obj
    ([(keySourceType, Json.str (encodeSourceType c.sourceType)),
      (keyContent, Json.str c.content)]
     ++ (match c.fileData with
         | some fd => [(keyFileData, encodeFileData fd)]
         | none => [])
     ++ [(keyDifficulty, Json.str (encodeDifficulty c.difficulty)),
         (keyQuestionCounts, encodeCounts c.questionCounts)]
     ++ (match c.pageCount with
         | some n => [(keyPageCount, Json.num n)]
         | none => []))

/-- `\x7b ...INITIAL_CONFIG, ...parsed \x7d` (`src/App.tsx` 288): every
key present in the parsed document wins, absent keys fall back to
`INITIAL_CONFIG`.  Decoding a present but ill-typed value falls back
too; that branch is never exercised on stored encodings. -/
def loadMergeConfig (j : Json) : GenerationConfig :=
  { sourceType := ((jsonLookup j keySourceType).bind decodeSourceType).getD INITIAL_CONFIG.sourceType,
    content := ((jsonLookup j keyContent).bind asStr).getD INITIAL_CONFIG.content,
    fileData := (jsonLookup j keyFileData).bind decodeFileData,
    difficulty := ((jsonLookup j keyDifficulty).bind decodeDifficulty).getD INITIAL_CONFIG.difficulty,
    questionCounts := ((jsonLookup j keyQuestionCounts).bind decodeCounts).getD INITIAL_CONFIG.questionCounts,
    pageCount :=
      match jsonLookup j keyPageCount with
      | some jv => asNat jv
      | none => INITIAL_CONFIG.pageCount }

/-- `handleSaveConfig` (`src/App.tsx` 273-281) on the local-storage
cell: overwrite it with the serialized config. -/
def handleSaveConfig (c : GenerationConfig) (_storage : Option Json) : Option Json :=
  some (encodeConfig c)

/-- `handleLoadConfig` (`src/App.tsx` 283-297): when a saved blob
exists the config becomes the merge, otherwise it is unchanged. -/
def handleLoadConfig (storage : Option Json) (current : GenerationConfig) : GenerationConfig :=
  match storage with
  | some j => loadMergeConfig j
  | none => current

/-! ## The options/pairs typing invariant (spec section 3) -/

/-- The spec invariant: an options array is populated only on a
multiple-choice question, a pairs array only on a matching question. -/
def questionTypeOk (q : Question) : Prop :=
  (q.options.isSome = true → q.type = QuestionType.multipleChoice) ∧
  (q.pairs.isSome = true → q.type = QuestionType.matching)

instance (q : Question) : Decidable (questionTypeOk q) := by
  unfold questionTypeOk
  infer_instance

/-- The invariant over a whole exam. -/
def examTypeOk (e : ExamPaper) : Prop :=
  ∀ q ∈ e.questions, questionTypeOk q

instance (e : ExamPaper) : Decidable (examTypeOk e) := by
  unfold examTypeOk
  infer_instance

/-! ## Theorems -/

/-- C2: for every generation config whose source content (or file) is
present, `handleGenerate` rejects generation exactly when the total
requested question count over the six types is 0 or above 40, and for
every total in 1..40 it makes the generation call. -/
theorem handleGenerate_total_gate (c : GenerationConfig)
    (hsrc : (c.sourceType ≠ SourceType.file → jsTrim c.content ≠ "") ∧
            (c.sourceType = SourceType.file → c.fileData ≠ none)) :
    (totalQuestions c.questionCounts = 0 →
        handleGenerate c = GenOutcome.errZeroQuestions) ∧
    (totalQuestions c.questionCounts > 40 →
        handleGenerate c = GenOutcome.errTooManyQuestions) ∧
    (handleGenerate c = GenOutcome.generate c ↔
        1 ≤ totalQuestions c.questionCounts ∧ totalQuestions c.questionCounts ≤ 40) := by
  obtain ⟨h1, h2⟩ := hsrc
  have hnc : ¬(c.sourceType ≠ SourceType.file ∧ jsTrim c.content = "") := by
    rintro ⟨ha, hb⟩
    exact h1 ha hb
  have hnf : ¬(c.sourceType = SourceType.file ∧ c.fileData = none) := by
    rintro ⟨ha, hb⟩
    exact h2 ha hb
  unfold handleGenerate
  rw [if_neg hnc, if_neg hnf]
  refine ⟨fun h0 => by rw [if_pos h0], fun h40 => ?_, ?_⟩
  · rw [if_neg (by omega), if_pos h40]
  · constructor
    · intro hgen
      by_contra hrange
      rcases Nat.eq_zero_or_pos (totalQuestions c.questionCounts) with h0 | hpos
      · rw [if_pos h0] at hgen
        exact GenOutcome.noConfusion hgen
      · have h40 : totalQuestions c.questionCounts > 40 := by omega
        rw [if_neg (by omega), if_pos h40] at hgen
        exact GenOutcome.noConfusion hgen
    · rintro ⟨hlo, hhi⟩
      rw [if_neg (by omega), if_neg (by omega)]

/-- C2 witness: a concrete config with present text content and total
15 generates; totals 0 and 41 are rejected. -/
theorem handleGenerate_total_gate_witness :
    handleGenerate { INITIAL_CONFIG with content := newQuestionText } =
      GenOutcome.generate { INITIAL_CONFIG with content := newQuestionText } :=
  ((handleGenerate_total_gate { INITIAL_CONFIG with content := newQuestionText }
      (by decide)).2.2).mpr
    (by decide)

/-- C1 (amended): for any platform parser `jp`, `parseJSONSafe` returns
the raw parse when it succeeds; otherwise, when a fenced block is
matched with a nonempty capture, the parse of the capture; otherwise
(no fenced match, or an empty falsy capture), when both braces occur,
the parse of the JavaScript substring from the first opening brace
through the last closing brace; and fails on every other input. -/
theorem parseJSONSafe_cases (jp : String → Option Json) (text : String) :
    (∀ v, jp text = some v → parseJSONSafe jp text = some v) ∧
    (jp text = none → ∀ g, fencedJsonCapture text = some g → g ≠ "" →
        parseJSONSafe jp text = jp g) ∧
    (jp text = none →
        (fencedJsonCapture text = none ∨ fencedJsonCapture text = some "") →
        ∀ s e, firstIndexOf '\x7b' text = some s → lastIndexOf '\x7d' text = some e →
          parseJSONSafe jp text = jp (jsSubstring text s (e + 1))) ∧
    (jp text = none →
        (fencedJsonCapture text = none ∨ fencedJsonCapture text = some "") →
        (firstIndexOf '\x7b' text = none ∨ lastIndexOf '\x7d' text = none) →
        parseJSONSafe jp text = none) := by
  refine ⟨?_, ?_, ?_, ?_⟩
  · intro v hv
    unfold parseJSONSafe
    rw [hv]
  · intro hn g hg hne
    unfold parseJSONSafe
    rw [hn, hg]
    simp [hne]
  · intro hn hf s e hs he
    unfold parseJSONSafe
    rw [hn]
    rcases hf with hf | hf
    all_goals
      rw [hf]
      show braceParse jp text = jp (jsSubstring text s (e + 1))
      unfold braceParse
      rw [hs, he]
  · intro hn hf hb
    unfold parseJSONSafe
    rw [hn]
    have hbrace : braceParse jp text = none := by
      unfold braceParse
      rcases hb with hb | hb
      · rw [hb]
      · rw [hb]
        cases firstIndexOf '\x7b' text <;> rfl
    rcases hf with hf | hf <;> rw [hf] <;> simpa using hbrace

/-- The key of the object used in the C1 inputs. -/
def aKey : String := "a"

/-- A response whose fenced block captures the empty string but whose
brace substring is valid JSON. -/
def fencedEmptyInput : String := "```json``` \x7b\"a\": 1\x7d"

/-- C1 counterexample: `fencedEmptyInput` is not raw JSON and contains
a json fenced code block, so the claim demands the parse of the
(empty) fenced contents, which fails; the code instead falls through
(`match[1]` is falsy) and successfully parses the brace substring. -/
theorem parseJSONSafe_fence_cex :
    jsonParse fencedEmptyInput = none ∧
    fencedJsonCapture fencedEmptyInput = some "" ∧
    jsonParse "" = none ∧
    parseJSONSafe jsonParse fencedEmptyInput = some (Json.obj [(aKey, Json.num 1)]) ∧
    parseJSONSafe jsonParse fencedEmptyInput ≠ jsonParse "" := by
  have h1 : parseJSONSafe jsonParse fencedEmptyInput = some (Json.obj [(aKey, Json.num 1)]) := rfl
  have h2 : jsonParse "" = none := rfl
  refine ⟨rfl, rfl, h2, h1, ?_⟩
  rw [h1, h2]
  exact Option.some_ne_none _

/-- A response with a proper nonempty fenced block. -/
def fencedOkInput : String := "```json \x7b\"a\": 1\x7d ```"

/-- The capture of the fenced block of `fencedOkInput`. -/
def fencedOkCapture : String := "\x7b\"a\": 1\x7d"

/-- C1 witness: on a response with a nonempty fenced capture, the
function returns the parse of the capture. -/
theorem parseJSONSafe_cases_witness :
    parseJSONSafe jsonParse fencedOkInput = jsonParse fencedOkCapture :=
  (parseJSONSafe_cases jsonParse fencedOkInput).2.1 rfl fencedOkCapture rfl (by decide)

/-- C3: the number of rendered sheet pages equals the maximum of the
configured page count (defaulting to 1 when zero) and the highest page
number assigned to any question, where a question with no page counts
as page 1 and an exam with no questions contributes 0. -/
theorem pageNumbers_length_eq (e : ExamPaper) :
    (pageNumbers e).length =
      max (if e.pageCount = 0 then 1 else e.pageCount)
        (e.questions.foldr (fun q m => max (pageOf q) m) 0) := by
  simp [pageNumbers, totalRenderPages, maxPageWithQuestions, jsOr1, List.foldr_map]

/-- Helper: a group listed by `renderGroups` is the type bucket of the
page bucket. -/
theorem mem_renderGroups_eq (qs : List Question) (p : Nat) (t : QuestionType)
    (g : List Question) (h : (t, g) ∈ renderGroups qs p) :
    g = typeBucket (pageBucket qs p) t := by
  unfold renderGroups at h
  obtain ⟨t2, _, heq⟩ := List.mem_filterMap.mp h
  by_cases hemp : (typeBucket (pageBucket qs p) t2).isEmpty
  · simp [hemp] at heq
  · simp only [hemp] at heq
    rw [if_neg (by simp [hemp])] at heq
    obtain ⟨ht, hg⟩ := Prod.mk.injEq .. ▸ Option.some.injEq .. ▸ heq
    subst ht
    exact hg.symm

/-- Helper: mapping first components over a guarded `filterMap` is a
`filter`. -/
theorem map_fst_filterMap_guard {α β : Type} (L : List α) (c : α → Bool) (h : α → β) :
    (L.filterMap (fun t => if c t then none else some (t, h t))).map Prod.fst =
      L.filter (fun t => !c t) := by
  induction L with
  | nil => rfl
  | cons a L ih =>
    by_cases hc : c a <;> simp [List.filterMap_cons, hc, ih]

/-- C4: pagination grouping is a deterministic function of the question
list: every rendered group on page `p` consists exactly of the
questions assigned to `p` (default page 1) of that type, in input
order; the groups appear in the fixed `TYPE_ORDER` with empty groups
skipped; and equal question lists yield identical groupings. -/
theorem renderGroups_spec (qs : List Question) (p : Nat) :
    (∀ t g, (t, g) ∈ renderGroups qs p →
        g = qs.filter (fun q => decide (q.type = t) && decide (pageOf q = p))) ∧
    ((renderGroups qs p).map Prod.fst =
        TYPE_ORDER.filter (fun t => !(typeBucket (pageBucket qs p) t).isEmpty)) ∧
    (∀ qs2, qs = qs2 → renderGroups qs p = renderGroups qs2 p) := by
  refine ⟨?_, ?_, ?_⟩
  · intro t g h
    rw [mem_renderGroups_eq qs p t g h]
    unfold typeBucket pageBucket
    rw [List.filter_filter]
  · exact map_fst_filterMap_guard TYPE_ORDER
      (fun t => (typeBucket (pageBucket qs p) t).isEmpty)
      (fun t => typeBucket (pageBucket qs p) t)
  · intro qs2 h
    rw [h]

/-- A concrete true/false question for witnesses. -/
def wQ1 : Question :=
  { id := 1, type := QuestionType.trueFalse, text := trueFalseDefaultText,
    learningObjective := newObjectiveText }

/-- C4 witness: on a one-question list the single rendered group is the
corresponding filter of the input. -/
theorem renderGroups_spec_witness :
    [wQ1] = [wQ1].filter (fun q => decide (q.type = QuestionType.trueFalse) && decide (pageOf q = 1)) :=
  (renderGroups_spec [wQ1] 1).1 QuestionType.trueFalse [wQ1] (by decide)

/-- Helper: setting the text of an id that does not occur is the
identity. -/
theorem setQuestionText_of_not_mem (qId : Nat) (v : String) (qs : List Question)
    (h : qId ∉ qs.map Question.id) : setQuestionText qId v qs = qs := by
  induction qs with
  | nil => rfl
  | cons q qs ih =>
    simp only [List.map_cons, List.mem_cons] at h
    push_neg at h
    obtain ⟨h1, h2⟩ := h
    unfold setQuestionText
    simp only [List.map_cons]
    rw [if_neg (fun hq => h1 hq.symm)]
    have := ih h2
    unfold setQuestionText at this
    rw [this]

/-- Helper: with pairwise-distinct ids, overwriting the text of the
question found for `qId` and then restoring its recorded text is the
identity. -/
theorem setText_cancel (qId : Nat) (t : String) (qs : List Question) (q0 : Question)
    (hnd : (qs.map Question.id).Nodup)
    (hfind : qs.find? (fun q => decide (q.id = qId)) = some q0) :
    setQuestionText qId q0.text (setQuestionText qId t qs) = qs := by
  induction qs with
  | nil => simp [List.find?] at hfind
  | cons q qs ih =>
    rw [List.map_cons, List.nodup_cons] at hnd
    obtain ⟨hq_notin, hnd2⟩ := hnd
    by_cases hq : q.id = qId
    · have hfq : (q :: qs).find? (fun q => decide (q.id = qId)) = some q := by
        rw [List.find?_cons_of_pos]
        simp [hq]
      have hq0 : q0 = q := by
        rw [hfq] at hfind
        exact (Option.some.injEq .. ▸ hfind).symm
      subst hq0
      have htail : qId ∉ qs.map Question.id := by
        intro hmem
        exact hq_notin (hq ▸ hmem)
      unfold setQuestionText
      simp only [List.map_cons, if_pos hq]
      have ht1 : setQuestionText qId t qs = qs := setQuestionText_of_not_mem qId t qs htail
      have ht2 : setQuestionText qId q0.text qs = qs :=
        setQuestionText_of_not_mem qId q0.text qs htail
      unfold setQuestionText at ht1 ht2
      rw [ht1, ht2]
    · have hfq : (q :: qs).find? (fun q => decide (q.id = qId)) = qs.find? (fun q => decide (q.id = qId)) := by
        rw [List.find?_cons_of_neg]
        simp [hq]
      rw [hfq] at hfind
      have := ih hnd2 hfind
      unfold setQuestionText at this ⊢
      simp only [List.map_cons, if_neg hq]
      rw [this]

/-- C5: when the per-question regeneration call fails, the optimistic
placeholder is reverted to the recorded original text and the exam
state is exactly what it was before the regeneration started (for
exams whose question ids are pairwise distinct, as the invariant
requires). -/
theorem regenerateFailureFlow_id (e : ExamPaper) (qId : Nat)
    (hnd : (e.questions.map Question.id).Nodup)
    (hmem : ∃ q ∈ e.questions, q.id = qId) :
    regenerateFailureFlow e qId = e := by
  obtain ⟨q, hq, hid⟩ := hmem
  have hfind : (e.questions.find? (fun q => decide (q.id = qId))).isSome :=
    List.find?_isSome.mpr ⟨q, hq, by simp [hid]⟩
  obtain ⟨q0, hq0⟩ := Option.isSome_iff_exists.mp hfind
  unfold regenerateFailureFlow
  rw [hq0]
  unfold optimisticRegen
  show { e with questions := setQuestionText qId q0.text (setQuestionText qId placeholderText e.questions) } = e
  rw [setText_cancel qId placeholderText e.questions q0 hnd hq0]

/-- A concrete multiple-choice question for witnesses. -/
def wQ2 : Question :=
  { id := 2, type := QuestionType.multipleChoice, text := newQuestionText,
    options := some [optionLabel1, optionLabel2],
    learningObjective := newObjectiveText, page := some 2 }

/-- A concrete exam for witnesses. -/
def wExam : ExamPaper :=
  { header := { title := aKey, schoolName := aKey, grade := aKey, durationMinutes := 60 },
    questions := [wQ1, wQ2], evaluationTable := [], pageCount := 1 }

/-- C5 witness: a failed regeneration of question 1 of the concrete
exam leaves the exam unchanged. -/
theorem regenerateFailureFlow_id_witness : regenerateFailureFlow wExam 1 = wExam :=
  regenerateFailureFlow_id wExam 1 (by decide) (by decide)

/-- Helper: an id-preserving rewrite of every question leaves the id
list unchanged. -/
theorem map_id_pointwise (qs : List Question) (f : Question → Question)
    (hf : ∀ q, (f q).id = q.id) :
    (qs.map f).map Question.id = qs.map Question.id := by
  rw [List.map_map]
  exact List.map_congr_left (fun q _ => hf q)

/-- Helper: an id-preserving rewrite of every question preserves
distinctness of the ids. -/
theorem nodup_map_id_of_pointwise (qs : List Question) (f : Question → Question)
    (hf : ∀ q, (f q).id = q.id) (h : (qs.map Question.id).Nodup) :
    ((qs.map f).map Question.id).Nodup := by
  rw [map_id_pointwise qs f hf]
  exact h

/-- Helper: every member is at most the `foldr max 0` of its list. -/
theorem le_foldr_max (l : List Nat) (x : Nat) (hx : x ∈ l) : x ≤ l.foldr max 0 := by
  induction l with
  | nil => cases hx
  | cons a l ih =>
    rcases List.mem_cons.mp hx with h | h
    · subst h
      exact le_max_left x (l.foldr max 0)
    · exact le_trans (ih h) (le_max_right a (l.foldr max 0))

/-- Helper: the question built by `handleAddQuestion` carries the
requested id for every type. -/
theorem addQuestionNew_id (t : QuestionType) (newId lastPage : Nat) :
    (addQuestionNew t newId lastPage).id = newId := by
  cases t <;> rfl

/-- C7: on an exam whose question ids are pairwise distinct, each
editing operation (add with id `1 + max existing id` — 1 on an empty
exam since the fold floor is 0 —, delete by id filter, per-field text
update, move page, regeneration success and failure) again yields
pairwise distinct question ids. -/
theorem editOps_preserve_nodup_ids (e : ExamPaper) (t : QuestionType) (qId : Nat)
    (v : String) (next : Bool) (d : RegenData) (nd : Difficulty)
    (hnd : (e.questions.map Question.id).Nodup) :
    ((handleAddQuestion e t).questions.map Question.id =
        e.questions.map Question.id ++ [(e.questions.map Question.id).foldr max 0 + 1]) ∧
    ((handleAddQuestion e t).questions.map Question.id).Nodup ∧
    ((deleteQuestion e qId).questions.map Question.id).Nodup ∧
    ((updateQuestionText e qId v).questions.map Question.id).Nodup ∧
    ((moveQuestionPage e qId next).questions.map Question.id).Nodup ∧
    ((regenerateSuccessFlow e qId d nd).questions.map Question.id).Nodup ∧
    ((regenerateFailureFlow e qId).questions.map Question.id).Nodup := by
  have hadd : (handleAddQuestion e t).questions.map Question.id =
      e.questions.map Question.id ++ [(e.questions.map Question.id).foldr max 0 + 1] := by
    unfold handleAddQuestion
    simp only [List.map_append, List.map_cons, List.map_nil]
    rw [addQuestionNew_id]
  refine ⟨hadd, ?_, ?_, ?_, ?_, ?_, ?_⟩
  · rw [hadd]
    rw [List.nodup_append]
    refine ⟨hnd, List.nodup_singleton _, ?_⟩
    intro x hx hx2
    rw [List.mem_singleton] at hx2
    subst hx2
    have := le_foldr_max (e.questions.map Question.id) _ hx
    omega
  · unfold deleteQuestion
    exact ((List.filter_sublist e.questions).map Question.id).nodup hnd
  · exact nodup_map_id_of_pointwise e.questions _
      (fun q => by by_cases h : q.id = qId <;> simp [h]) hnd
  · exact nodup_map_id_of_pointwise e.questions _
      (fun q => by by_cases h : q.id = qId <;> simp [h]) hnd
  · unfold regenerateSuccessFlow
    cases hf : e.questions.find? (fun q => decide (q.id = qId)) with
    | none => exact hnd
    | some q0 =>
      exact nodup_map_id_of_pointwise _ _
        (fun q => by by_cases h : q.id = qId <;> simp [h])
        (nodup_map_id_of_pointwise e.questions _
          (fun q => by by_cases h : q.id = qId <;> simp [h]) hnd)
  · unfold regenerateFailureFlow
    cases hf : e.questions.find? (fun q => decide (q.id = qId)) with
    | none => exact hnd
    | some q0 =>
      exact nodup_map_id_of_pointwise _ _
        (fun q => by by_cases h : q.id = qId <;> simp [h])
        (nodup_map_id_of_pointwise e.questions _
          (fun q => by by_cases h : q.id = qId <;> simp [h]) hnd)

/-- C7 witness: adding a short-answer question to the concrete
two-question exam appends id 3 and keeps the ids pairwise distinct. -/
theorem editOps_preserve_nodup_ids_witness :
    ((handleAddQuestion wExam QuestionType.shortAnswer).questions.map Question.id).Nodup :=
  (editOps_preserve_nodup_ids wExam QuestionType.shortAnswer 1 aKey true
    {} Difficulty.easy (by decide)).2.1

/-- Helper: `find?` by id commutes with a map that preserves whether a
question has the searched id. -/
theorem find?_map_pred (qs : List Question) (f : Question → Question) (qId : Nat)
    (hf : ∀ q : Question, (f q).id = qId ↔ q.id = qId) :
    (qs.map f).find? (fun q => decide (q.id = qId)) =
      (qs.find? (fun q => decide (q.id = qId))).map f := by
  induction qs with
  | nil => rfl
  | cons q qs ih =>
    rw [List.map_cons]
    by_cases h : q.id = qId
    · rw [List.find?_cons_of_pos _ (by simp [hf q, h]),
        List.find?_cons_of_pos _ (by simp [h])]
      rfl
    · rw [List.find?_cons_of_neg _ (by simp [hf q, h]),
        List.find?_cons_of_neg _ (by simp [h]), ih]

/-- C10: a successful per-question regeneration replaces the question
found for `qId` by one whose id is `qId` and whose page is the found
question's page at completion time, regardless of the id and page
fields of the AI-returned data `d`, and whose difficulty is the
requested one. -/
theorem regenerateSuccessFlow_frame (e : ExamPaper) (qId : Nat) (d : RegenData)
    (nd : Difficulty) (q0 : Question)
    (hfind : e.questions.find? (fun q => decide (q.id = qId)) = some q0) :
    ∃ q1,
      (regenerateSuccessFlow e qId d nd).questions.find?
          (fun q => decide (q.id = qId)) = some q1 ∧
      q1.id = qId ∧ q1.page = q0.page ∧ q1.difficulty = some nd := by
  have hq0 : q0.id = qId := by
    have := List.find?_some hfind
    simpa using this
  have hcomp : (regenerateSuccessFlow e qId d nd).questions =
      (e.questions.map
          (fun q => if q.id = qId then { q with text := placeholderText } else q)).map
        (fun q => if q.id = qId then
            { mergeRegen q0 d nd with id := qId, page := q.page } else q) := by
    unfold regenerateSuccessFlow
    rw [hfind]
    rfl
  rw [hcomp,
    find?_map_pred _ _ qId (fun q => by by_cases h : q.id = qId <;> simp [h]),
    find?_map_pred _ _ qId (fun q => by by_cases h : q.id = qId <;> simp [h]),
    hfind]
  refine ⟨_, rfl, ?_, ?_, ?_⟩ <;> simp [hq0, mergeRegen]

/-- An AI regeneration payload carrying conflicting id and page
fields. -/
def wRegenData : RegenData := { id := some 99, page := some 7, text := some aKey }

/-- C10 witness: regenerating question 1 of the concrete exam with a
payload claiming id 99 and page 7 still yields a question with id 1,
the original page, and the requested difficulty. -/
theorem regenerateSuccessFlow_frame_witness :
    ∃ q1,
      (regenerateSuccessFlow wExam 1 wRegenData Difficulty.hard).questions.find?
          (fun q => decide (q.id = 1)) = some q1 ∧
      q1.id = 1 ∧ q1.page = wQ1.page ∧ q1.difficulty = some Difficulty.hard :=
  regenerateSuccessFlow_frame wExam 1 wRegenData Difficulty.hard wQ1 (by decide)

/-- Helper: base64 digits are never a comma. -/
theorem b64Char_ne_comma (n : Nat) : b64Char n ≠ ',' := by
  unfold b64Char List.getD
  cases hg : b64Alphabet.get? n with
  | none => simp
  | some c =>
    have hc : c ∈ b64Alphabet := List.get?_mem hg
    have hall : ∀ x ∈ b64Alphabet, x ≠ ',' := by decide
    simpa using hall c hc

/-- Helper: a base64 encoding contains no comma. -/
theorem comma_not_mem_b64Encode : ∀ bytes : List Nat, ',' ∉ b64Encode bytes
  | [] => by simp [b64Encode]
  | b0 :: [] => by
    simp only [b64Encode, List.mem_cons, List.not_mem_nil, or_false]
    push_neg
    exact ⟨(b64Char_ne_comma _).symm, (b64Char_ne_comma _).symm, by decide, by decide⟩
  | b0 :: b1 :: [] => by
    simp only [b64Encode, List.mem_cons, List.not_mem_nil, or_false]
    push_neg
    exact ⟨(b64Char_ne_comma _).symm, (b64Char_ne_comma _).symm,
      (b64Char_ne_comma _).symm, by decide⟩
  | b0 :: b1 :: b2 :: rest => by
    simp only [b64Encode, List.mem_cons]
    push_neg
    exact ⟨(b64Char_ne_comma _).symm, (b64Char_ne_comma _).symm,
      (b64Char_ne_comma _).symm, (b64Char_ne_comma _).symm,
      comma_not_mem_b64Encode rest⟩

/-- Helper: splitting a comma-free list yields the singleton. -/
theorem splitComma_not_mem (a : List Char) (h : ',' ∉ a) : splitComma a = [a] := by
  induction a with
  | nil => rfl
  | cons c rest ih =>
    simp only [List.mem_cons] at h
    push_neg at h
    obtain ⟨h1, h2⟩ := h
    unfold splitComma
    rw [if_neg (fun hc => h1 hc.symm), ih h2]

/-- Helper: splitting at the first comma. -/
theorem splitComma_append (a b : List Char) (ha : ',' ∉ a) :
    splitComma (a ++ ',' :: b) = a :: splitComma b := by
  induction a with
  | nil => simp [splitComma]
  | cons c rest ih =>
    simp only [List.mem_cons] at ha
    push_neg at ha
    obtain ⟨h1, h2⟩ := ha
    simp only [List.cons_append]
    conv_lhs => unfold splitComma
    rw [if_neg (fun hc => h1 hc.symm), ih h2]

/-- Helper: extracting the payload of a modelled data URL recovers the
base64 encoding of the file bytes (real MIME types contain no comma). -/
theorem splitCommaAt1_dataURL (f : UploadedFile) (hm : ',' ∉ f.mime.toList) :
    splitCommaAt1 (readAsDataURL f) = String.mk (b64Encode f.bytes) := by
  unfold splitCommaAt1 readAsDataURL
  have hsplit :
      (dataUrlPrefix ++ f.mime ++ base64Marker ++ String.mk (b64Encode f.bytes)).toList =
        (dataUrlPrefix.toList ++ f.mime.toList ++
            [';', 'b', 'a', 's', 'e', '6', '4']) ++ ',' :: b64Encode f.bytes := by
    show (dataUrlPrefix.toList ++ f.mime.toList ++ base64Marker.toList ++ b64Encode f.bytes) = _
    simp [dataUrlPrefix, base64Marker]
  rw [hsplit, splitComma_append _ _ (by
    simp only [List.mem_append]
    push_neg
    refine ⟨⟨by decide, hm⟩, by decide⟩),
    splitComma_not_mem _ (comma_not_mem_b64Encode f.bytes)]
  rfl

/-- C9: an upload strictly larger than 10MB is rejected with the error
message and the config (hence its `fileData`) is unchanged; an upload
of at most 10MB stores the file's MIME type with the base64-encoded
contents in `config.fileData` and clears the error state. -/
theorem handleFileUpload_spec (f : UploadedFile) (cfg : GenerationConfig)
    (err : Option String) (hm : ',' ∉ f.mime.toList) :
    (f.bytes.length > fileSizeLimit →
        handleFileUpload f cfg err = (cfg, some fileErrMsg)) ∧
    (f.bytes.length ≤ fileSizeLimit →
        (handleFileUpload f cfg err).1.fileData =
            some { mimeType := f.mime, data := String.mk (b64Encode f.bytes) } ∧
        (handleFileUpload f cfg err).2 = none) := by
  constructor
  · intro h
    unfold handleFileUpload
    rw [if_pos h]
  · intro h
    unfold handleFileUpload
    rw [if_neg (by omega)]
    refine ⟨?_, rfl⟩
    simp only
    rw [splitCommaAt1_dataURL f hm]

/-- A MIME type for the upload witness. -/
def mimePng : String := "image/png"

/-- A concrete three-byte upload for the witness. -/
def wFile : UploadedFile := { name := aKey, mime := mimePng, bytes := [1, 2, 3] }

/-- C9 witness: uploading a concrete 3-byte PNG stores its MIME type
and base64 payload and clears the error. -/
theorem handleFileUpload_spec_witness :
    (handleFileUpload wFile INITIAL_CONFIG none).1.fileData =
        some { mimeType := mimePng, data := String.mk (b64Encode [1, 2, 3]) } ∧
      (handleFileUpload wFile INITIAL_CONFIG none).2 = none :=
  (handleFileUpload_spec wFile INITIAL_CONFIG none (by decide)).2 (by decide)

/-- Helper: with pairwise-distinct ids, every question carrying the
searched id is the one `find?` returns. -/
theorem find?_unique_of_nodup (qs : List Question) (q0 : Question) (qId : Nat)
    (hnd : (qs.map Question.id).Nodup)
    (hfind : qs.find? (fun q => decide (q.id = qId)) = some q0) :
    ∀ q ∈ qs, q.id = qId → q = q0 := by
  induction qs with
  | nil => intro q h
           cases h
  | cons a qs ih =>
    rw [List.map_cons, List.nodup_cons] at hnd
    obtain ⟨hna, hnd2⟩ := hnd
    intro q hq hid
    by_cases ha : a.id = qId
    · rw [List.find?_cons_of_pos _ (by simp [ha])] at hfind
      obtain rfl : a = q0 := by simpa using hfind
      rcases List.mem_cons.mp hq with rfl | hmem
      · rfl
      · exact absurd (ha ▸ hid ▸ List.mem_map_of_mem Question.id hmem) hna
    · rw [List.find?_cons_of_neg _ (by simp [ha])] at hfind
      rcases List.mem_cons.mp hq with rfl | hmem
      · exact absurd hid ha
      · exact ih hnd2 hfind q hmem hid

/-- Helper: a pointwise rewrite that keeps the typing invariant keeps
it for the whole list. -/
theorem examTypeOk_map (qs : List Question) (f : Question → Question)
    (h : ∀ q ∈ qs, questionTypeOk q)
    (hf : ∀ q, questionTypeOk q → questionTypeOk (f q)) :
    ∀ q ∈ qs.map f, questionTypeOk q := by
  intro q hq
  obtain ⟨q2, hq2, rfl⟩ := List.mem_map.mp hq
  exact hf q2 (h q2 hq2)

/-- Helper: overwriting the options of the question found for `qId` —
which already has an options array — keeps the typing invariant on an
id-unique exam. -/
theorem examTypeOk_updateOptions (e : ExamPaper) (qId : Nat) (newOpts : List String)
    (q0 : Question) (he : examTypeOk e)
    (hnd : (e.questions.map Question.id).Nodup)
    (hfind : e.questions.find? (fun q => decide (q.id = qId)) = some q0)
    (hopts : q0.options.isSome = true) :
    examTypeOk (updateQuestionOptions e qId newOpts) := by
  intro q hq
  obtain ⟨q2, hq2, rfl⟩ := List.mem_map.mp hq
  by_cases h : q2.id = qId
  · have hq20 : q2 = q0 := find?_unique_of_nodup e.questions q0 qId hnd hfind q2 hq2 h
    subst hq20
    rw [if_pos h]
    exact ⟨fun _ => (he q2 hq2).1 hopts, fun hp => (he q2 hq2).2 hp⟩
  · rw [if_neg h]
    exact he q2 hq2

/-- A parsed AI response carrying an options array on a true/false
question, as the response schema permits. -/
def wBadExam : ExamPaper :=
  { header := { title := aKey, schoolName := aKey, grade := aKey, durationMinutes := 60 },
    questions :=
      [{ id := 1, type := QuestionType.trueFalse, text := aKey,
         options := some [optionLabel1], learningObjective := aKey }],
    evaluationTable := [], pageCount := 1 }

/-- C6 counterexample: generation post-processing keeps an AI-returned
options array on a non-multiple-choice question, so an exam reachable
through the generation operation violates the options/pairs typing
invariant. -/
theorem genPostProcess_typeOk_cex :
    ¬ examTypeOk (genPostProcess wBadExam (some 1)) := by
  decide

/-- C6 (amended): manual add question establishes the options/pairs
typing invariant; text update, option edits (on id-unique exams),
delete, move page and failed regeneration preserve it; generation
post-processing preserves it provided the parsed AI response already
satisfies it; the regeneration merge yields a conforming question
provided the AI data carries no type field and carries options/pairs
only when the current question has the corresponding type, and a
successful regeneration whose merged question conforms preserves the
exam-level invariant.  The code does not itself enforce the invariant
on AI-returned data. -/
theorem typeOk_preservation (e : ExamPaper) (t : QuestionType) (qId newId lastPage : Nat)
    (v : String) (idx : Nat) (next : Bool) (raw : ExamPaper) (pc : Option Nat)
    (cur : Question) (d : RegenData) (nd : Difficulty) (q0 : Question)
    (he : examTypeOk e) (hnd : (e.questions.map Question.id).Nodup) :
    questionTypeOk (addQuestionNew t newId lastPage) ∧
    examTypeOk (handleAddQuestion e t) ∧
    examTypeOk (updateQuestionText e qId v) ∧
    examTypeOk (addOption e qId) ∧
    examTypeOk (updateOption e qId idx v) ∧
    examTypeOk (deleteQuestion e qId) ∧
    examTypeOk (moveQuestionPage e qId next) ∧
    ((∀ q ∈ raw.questions, questionTypeOk q) → examTypeOk (genPostProcess raw pc)) ∧
    (questionTypeOk cur → d.type = none →
      (d.options.isSome = true → cur.type = QuestionType.multipleChoice) →
      (d.pairs.isSome = true → cur.type = QuestionType.matching) →
      questionTypeOk (mergeRegen cur d nd)) ∧
    examTypeOk (regenerateFailureFlow e qId) ∧
    (e.questions.find? (fun q => decide (q.id = qId)) = some q0 →
      questionTypeOk (mergeRegen q0 d nd) →
      examTypeOk (regenerateSuccessFlow e qId d nd)) := by
  have haddq : ∀ t2 n p, questionTypeOk (addQuestionNew t2 n p) := by
    intro t2 n p
    cases t2 <;> simp [addQuestionNew, questionTypeOk]
  refine ⟨haddq t newId lastPage, ?_, ?_, ?_, ?_, ?_, ?_, ?_, ?_, ?_, ?_⟩
  · intro q hq
    unfold handleAddQuestion at hq
    rcases List.mem_append.mp hq with hmem | hmem
    · exact he q hmem
    · rw [List.mem_singleton.mp hmem]
      exact haddq t _ _
  · exact examTypeOk_map e.questions _ he (fun q hq => by
      by_cases h : q.id = qId
      · rw [if_pos h]
        exact ⟨fun ho => hq.1 ho, fun hp => hq.2 hp⟩
      · rw [if_neg h]
        exact hq)
  · unfold addOption
    cases hf : e.questions.find? (fun q => decide (q.id = qId)) with
    | none => exact he
    | some q2 =>
      show examTypeOk (match q2.options with
        | some opts => updateQuestionOptions e qId (opts ++ [newOptionLabel])
        | none => e)
      cases ho : q2.options with
      | none => exact he
      | some opts =>
        exact examTypeOk_updateOptions e qId _ q2 he hnd hf (by simp [ho])
  · unfold updateOption
    cases hf : e.questions.find? (fun q => decide (q.id = qId)) with
    | none => exact he
    | some q2 =>
      show examTypeOk (match q2.options with
        | some opts => updateQuestionOptions e qId (opts.set idx v)
        | none => e)
      cases ho : q2.options with
      | none => exact he
      | some opts =>
        exact examTypeOk_updateOptions e qId _ q2 he hnd hf (by simp [ho])
  · intro q hq
    unfold deleteQuestion at hq
    exact he q (List.mem_of_mem_filter hq)
  · intro q hq
    obtain ⟨q2, hq2, rfl⟩ := List.mem_map.mp hq
    by_cases h : q2.id = qId
    · rw [if_pos h]
      exact ⟨fun ho => (he q2 hq2).1 ho, fun hp => (he q2 hq2).2 hp⟩
    · rw [if_neg h]
      exact he q2 hq2
  · intro hraw
    exact examTypeOk_map raw.questions _ hraw (fun q hq =>
      ⟨fun ho => hq.1 ho, fun hp => hq.2 hp⟩)
  · intro hcur htype hopt hpair
    have htype2 : (mergeRegen cur d nd).type = cur.type := by
      unfold mergeRegen
      rw [htype]
      rfl
    constructor
    · intro ho
      rw [htype2]
      unfold mergeRegen at ho
      simp only at ho
      cases hdo : d.options with
      | some o => exact hopt (by simp [hdo])
      | none =>
        rw [hdo] at ho
        exact hcur.1 ho
    · intro hp
      rw [htype2]
      unfold mergeRegen at hp
      simp only at hp
      cases hdp : d.pairs with
      | some p => exact hpair (by simp [hdp])
      | none =>
        rw [hdp] at hp
        exact hcur.2 hp
  · unfold regenerateFailureFlow
    cases hf : e.questions.find? (fun q => decide (q.id = qId)) with
    | none => exact he
    | some q2 =>
      refine examTypeOk_map _ _ (examTypeOk_map e.questions _ he (fun q hq => ?_)) (fun q hq => ?_)
      all_goals
        by_cases h : q.id = qId
      · rw [if_pos h]
        exact ⟨fun ho => hq.1 ho, fun hp => hq.2 hp⟩
      · rw [if_neg h]
        exact hq
      · rw [if_pos h]
        exact ⟨fun ho => hq.1 ho, fun hp => hq.2 hp⟩
      · rw [if_neg h]
        exact hq
  · intro hfind hmerged
    have hcomp : (regenerateSuccessFlow e qId d nd).questions =
        (e.questions.map
            (fun q => if q.id = qId then { q with text := placeholderText } else q)).map
          (fun q => if q.id = qId then
              { mergeRegen q0 d nd with id := qId, page := q.page } else q) := by
      unfold regenerateSuccessFlow
      rw [hfind]
      rfl
    intro q hq
    rw [hcomp] at hq
    refine examTypeOk_map _ _ (examTypeOk_map e.questions _ he (fun q2 hq2 => ?_)) (fun q2 hq2 => ?_) q hq
    · by_cases h : q2.id = qId
      · rw [if_pos h]
        exact ⟨fun ho => hq2.1 ho, fun hp => hq2.2 hp⟩
      · rw [if_neg h]
        exact hq2
    · by_cases h : q2.id = qId
      · rw [if_pos h]
        exact ⟨fun ho => hmerged.1 ho, fun hp => hmerged.2 hp⟩
      · rw [if_neg h]
        exact hq2

/-- C6 witness: on the concrete well-typed exam, adding a matching
question keeps the options/pairs typing invariant. -/
theorem typeOk_preservation_witness :
    examTypeOk (handleAddQuestion wExam QuestionType.matching) :=
  (typeOk_preservation wExam QuestionType.matching 1 3 1 aKey 0 true wExam (some 1)
    wQ1 {} Difficulty.easy wQ1 (by decide) (by decide)).2.1

/-- C8 counterexample: a config whose optional `pageCount` field is
absent does not round-trip: `JSON.stringify` drops the absent field and
the load-time merge with `INITIAL_CONFIG` fills in `pageCount: 1`. -/
theorem saveLoadConfig_not_id :
    handleLoadConfig
        (handleSaveConfig { INITIAL_CONFIG with pageCount := none } none)
        { INITIAL_CONFIG with pageCount := none } ≠
      { INITIAL_CONFIG with pageCount := none } := by
  decide

/-- C8 (amended): for every generation config whose `pageCount` field
is present, saving to the storage cell and loading back yields the
saved config, whatever was stored before and whatever the current
config is. -/
theorem saveLoadConfig_roundTrip (c : GenerationConfig)
    (storage : Option Json) (current : GenerationConfig)
    (hpc : c.pageCount.isSome = true) :
    handleLoadConfig (handleSaveConfig c storage) current = c := by
  rcases c with ⟨st, content, fd, d, qc, pc⟩
  cases pc with
  | none => simp at hpc
  | some n => cases st <;> cases d <;> cases fd <;> rfl

/-- C8 witness: the initial config (whose `pageCount` is 1) does
round-trip. -/
theorem saveLoadConfig_roundTrip_witness :
    handleLoadConfig (handleSaveConfig INITIAL_CONFIG none) INITIAL_CONFIG =
      INITIAL_CONFIG :=
  saveLoadConfig_roundTrip INITIAL_CONFIG none INITIAL_CONFIG rfl

end StudioMoallem
